import Mathlib

/-!
Verification of the crop / normalization / compositing core of the
5bands_labeler repository.

The development shallowly embeds the relevant Python code:

* src/core/image_cropper.py : crop_multispectral_image, _adjust_crop_bounds,
  _resize_crop, crop_from_file (shape normalization part), get_crop_info;
* src/utils/image_utils.py : normalize_band, create_rgb_composite,
  calculate_crop_bounds, load_image (shape normalization part).

Numpy arrays are modelled as nested lists of rational numbers together with a
dtype tag; pixel coordinates are integers (Python ints), image dimensions and
crop sizes natural numbers.  Fallible code (functions that catch an exception
and report failure) returns Option.  All definitions are executable.
-/

namespace FiveBands

/-- Numpy element types the code distinguishes (the resizer branches on
uint8 versus everything else). -/
inductive NpDType where
  | uint8
  | uint16
  | float32
  | float64
  deriving DecidableEq, Repr

/-- Band-major numpy array of shape (bands, height, width): rational entries
plus a dtype tag shared by the whole array, as in numpy. -/
structure NpArray3 where
  dtype : NpDType
  data : List (List (List ℚ))
  deriving DecidableEq, Repr

/-- Shape of a 3-axis nested list, read the way numpy reports it:
(length, length of first row list, length of first column list). -/
def shape3 (a : List (List (List ℚ))) : ℕ × ℕ × ℕ :=
  (a.length, (a.headD []).length, ((a.headD []).headD []).length)

/-- Rectangularity of a 3-axis nested list: every band has exactly h rows and
every row exactly w columns (numpy arrays are rectangular by construction). -/
def Rect3 (a : List (List (List ℚ))) (h w : ℕ) : Prop :=
  ∀ band ∈ a, band.length = h ∧ ∀ row ∈ band, row.length = w

instance (a : List (List (List ℚ))) (h w : ℕ) : Decidable (Rect3 a h w) := by
  unfold Rect3; infer_instance

/-- Embeds ImageUtils.calculate_crop_bounds (image_utils.py lines 244 to 253)
and the identical naive clamp inlined in crop_multispectral_image
(image_cropper.py lines 55 to 59): half_size is the floor of crop_size / 2,
the low edges are clamped to 0 from below and the high edges to the axis
length from above.  Returns (x1, y1, x2, y2). -/
def calculate_crop_bounds (center_x center_y : ℤ) (crop_size width height : ℕ) :
    ℤ × ℤ × ℤ × ℤ :=
  let half_size : ℤ := ((crop_size / 2 : ℕ) : ℤ)
  let x1 := max 0 (center_x - half_size)
  let y1 := max 0 (center_y - half_size)
  let x2 := min (width : ℤ) (center_x + half_size)
  let y2 := min (height : ℤ) (center_y + half_size)
  (x1, y1, x2, y2)

/-- One axis of ImageCropper._adjust_crop_bounds (image_cropper.py lines 119
to 132): starting from the ideal unclamped pair (low, high), if the low edge
is negative the deficit is added to the high edge; otherwise, if the high
edge exceeds the axis length, the excess is subtracted from the low edge.
The x and y blocks of the source are this computation verbatim. -/
def adjustAxis (low high : ℤ) (axis_len : ℕ) : ℤ × ℤ :=
  if low < 0 then (0, high + |low|)
  else if high > (axis_len : ℤ) then (low - (high - (axis_len : ℤ)), (axis_len : ℤ))
  else (low, high)

/-- Embeds ImageCropper._adjust_crop_bounds (image_cropper.py lines 97 to
140): per-axis shift adjustment of the ideal box followed by a final clamp of
both edges into the image.  Returns (x1, y1, x2, y2). -/
def adjust_crop_bounds (center_x center_y : ℤ) (crop_size img_width img_height : ℕ) :
    ℤ × ℤ × ℤ × ℤ :=
  let half_size : ℤ := ((crop_size / 2 : ℕ) : ℤ)
  let px := adjustAxis (center_x - half_size) (center_x + half_size) img_width
  let py := adjustAxis (center_y - half_size) (center_y + half_size) img_height
  (max 0 px.1, max 0 py.1, min (img_width : ℤ) px.2, min (img_height : ℤ) py.2)

/-- Python slicing band[y1:y2, x1:x2] of one band, for the non-negative
indices produced by the bounds computations on the extraction path. -/
def sliceRC (band : List (List ℚ)) (y1 y2 x1 x2 : ℤ) : List (List ℚ) :=
  ((band.take y2.toNat).drop y1.toNat).map fun row =>
    (row.take x2.toNat).drop x1.toNat

/-- Embeds the extraction step of crop_multispectral_image (image_cropper.py
lines 76 to 82): slice all bands when preserve_bands is set, otherwise only
the first min(3, bands) bands.  Returns a fresh nested list; the source
array is left untouched. -/
def extract_crop (image_data : List (List (List ℚ))) (y1 y2 x1 x2 : ℤ)
    (preserve_bands : Bool) : List (List (List ℚ)) :=
  if preserve_bands then
    image_data.map fun band => sliceRC band y1 y2 x1 x2
  else
    (image_data.take (min 3 image_data.length)).map fun band =>
      sliceRC band y1 y2 x1 x2

/-- Truncation of a rational toward zero, as a C cast does. -/
def truncQ (x : ℚ) : ℤ :=
  if 0 ≤ x then ⌊x⌋ else ⌈x⌉

/-- Models the numpy astype cast: unsigned integer types truncate toward zero
and wrap modulo their width; the float tags keep the rational value (float
rounding is not modelled). -/
def castTo (d : NpDType) (x : ℚ) : ℚ :=
  match d with
  | .uint8 => ((truncQ x % 256 : ℤ) : ℚ)
  | .uint16 => ((truncQ x % 65536 : ℤ) : ℚ)
  | .float32 => x
  | .float64 => x

/-- Minimum entry of a band, 0 for an empty band (band_data.min() in numpy). -/
def bandMin (band : List (List ℚ)) : ℚ :=
  match band.flatten with
  | [] => 0
  | x :: xs => xs.foldl min x

/-- Maximum entry of a band, 0 for an empty band (band_data.max() in numpy). -/
def bandMax (band : List (List ℚ)) : ℚ :=
  match band.flatten with
  | [] => 0
  | x :: xs => xs.foldl max x

/-- Modelled from the spec: the external resampler (PIL Image.resize with the
Lanczos kernel, a library call, not code of this repository).  The spec only
relies on its contract of returning a target by target array resampled from
the input band; it is modelled here as index sampling, which satisfies that
contract and is executable. -/
def pilResize (band : List (List ℚ)) (target : ℕ) : List (List ℚ) :=
  let h := band.length
  let w := (band.headD []).length
  (List.range target).map fun i =>
    (List.range target).map fun j =>
      (band.getD (i * h / target) []).getD (j * w / target) 0

/-- Embeds ImageCropper._resize_crop (image_cropper.py lines 142 to 188): if
the crop is already target by target it is returned unchanged; otherwise each
band is resampled independently, uint8 bands directly, other dtypes through
the min-max round trip to 8 bit and back, cast to the original dtype. -/
def resize_crop (crop : NpArray3) (target_size : ℕ) : NpArray3 :=
  let s := shape3 crop.data
  if s.2.1 = target_size ∧ s.2.2 = target_size then crop
  else
    let resized_bands := (List.range s.1).map fun band_idx =>
      let band_data := crop.data.getD band_idx []
      if crop.dtype = NpDType.uint8 then
        pilResize band_data target_size
      else
        let mn := bandMin band_data
        let mx := bandMax band_data
        let normalized := band_data.map fun row =>
          row.map fun v => castTo .uint8 ((v - mn) / (mx - mn) * 255)
        let resized := pilResize normalized target_size
        resized.map fun row =>
          row.map fun v => castTo crop.dtype (v / 255 * (mx - mn) + mn)
    { dtype := crop.dtype, data := resized_bands }

/-- Tail of crop_multispectral_image once bounds are settled (image_cropper.py
lines 76 to 91): extract the slice, resize it if its shape is not exactly
crop_size by crop_size, and hand the array back (saving it to disk is the
sole further effect and is outside the model). -/
def crop_finish (image : NpArray3) (crop_size : ℕ) (preserve_bands : Bool)
    (x1 y1 x2 y2 : ℤ) : NpArray3 :=
  let cropped := extract_crop image.data y1 y2 x1 x2 preserve_bands
  let s := shape3 cropped
  if s.2.1 ≠ crop_size ∨ s.2.2 ≠ crop_size then
    resize_crop { dtype := image.dtype, data := cropped } crop_size
  else
    { dtype := image.dtype, data := cropped }

/-- Embeds ImageCropper.crop_multispectral_image (image_cropper.py lines 24
to 95) without the file write: naive clamp, acceptance test, shift adjustment
when the naive box is too small, hard failure (the source raises ValueError,
caught into returning False, here none) when the adjusted box is still too
small, then extraction and conditional resize. -/
def crop_multispectral_image (image : NpArray3) (center_x center_y : ℤ)
    (crop_size : ℕ) (preserve_bands : Bool) : Option NpArray3 :=
  let dims := shape3 image.data
  let height := dims.2.1
  let width := dims.2.2
  let nb := calculate_crop_bounds center_x center_y crop_size width height
  if nb.2.2.1 - nb.1 < (crop_size : ℤ) ∨ nb.2.2.2 - nb.2.1 < (crop_size : ℤ) then
    let ab := adjust_crop_bounds center_x center_y crop_size width height
    if ab.2.2.1 - ab.1 < (crop_size : ℤ) ∨ ab.2.2.2 - ab.2.1 < (crop_size : ℤ) then
      none
    else
      some (crop_finish image crop_size preserve_bands ab.1 ab.2.1 ab.2.2.1 ab.2.2.2)
  else
    some (crop_finish image crop_size preserve_bands nb.1 nb.2.1 nb.2.2.1 nb.2.2.2)

/-- Result record of ImageCropper.get_crop_info (image_cropper.py lines 294
to 302), one field per key of the returned dictionary. -/
structure CropInfo where
  is_valid : Bool
  can_adjust : Bool
  original_bounds : ℤ × ℤ × ℤ × ℤ
  adjusted_bounds : ℤ × ℤ × ℤ × ℤ
  actual_size : ℤ × ℤ
  center : ℤ × ℤ
  crop_size : ℕ
  deriving DecidableEq, Repr

/-- Embeds ImageCropper.get_crop_info (image_cropper.py lines 248 to 302):
naive bounds and their validity, plus the adjusted bounds (computed only when
the naive box is too small, otherwise equal to the naive ones). -/
def get_crop_info (image_shape : ℕ × ℕ × ℕ) (center_x center_y : ℤ)
    (crop_size : ℕ) : CropInfo :=
  let height := image_shape.2.1
  let width := image_shape.2.2
  let nb := calculate_crop_bounds center_x center_y crop_size width height
  let actual_width := nb.2.2.1 - nb.1
  let actual_height := nb.2.2.2 - nb.2.1
  let is_valid := decide ((crop_size : ℤ) ≤ actual_width ∧ (crop_size : ℤ) ≤ actual_height)
  if is_valid then
    { is_valid := true, can_adjust := true, original_bounds := nb,
      adjusted_bounds := nb, actual_size := (actual_width, actual_height),
      center := (center_x, center_y), crop_size := crop_size }
  else
    let ab := adjust_crop_bounds center_x center_y crop_size width height
    let can_adjust := decide ((crop_size : ℤ) ≤ ab.2.2.1 - ab.1 ∧ (crop_size : ℤ) ≤ ab.2.2.2 - ab.2.1)
    { is_valid := false, can_adjust := can_adjust, original_bounds := nb,
      adjusted_bounds := ab, actual_size := (actual_width, actual_height),
      center := (center_x, center_y), crop_size := crop_size }

/-- Insertion of a rational into a sorted list, auxiliary to the sort used by
the percentile model. -/
def insertSorted (x : ℚ) : List ℚ → List ℚ
  | [] => [x]
  | y :: ys => if x ≤ y then x :: y :: ys else y :: insertSorted x ys

/-- Insertion sort on rationals (the sort underlying np.percentile; any
correct sort gives the same result on the multiset of entries). -/
def sortQ (l : List ℚ) : List ℚ :=
  l.foldr insertSorted []

/-- Embeds np.percentile with the default linear interpolation, as called by
normalize_band: for a nonempty flattened sample of length n, the rank is
(n - 1) * q / 100 and the value interpolates linearly between the two
adjacent order statistics.  The empty case never reaches this definition
(numpy raises there and the caller catches). -/
def percentile (l : List ℚ) (q : ℚ) : ℚ :=
  let s := sortQ l
  let n := s.length
  if n = 0 then 0
  else
    let rank : ℚ := ((n : ℚ) - 1) * q / 100
    let f : ℕ := (⌊rank⌋).toNat
    let lo := s.getD f 0
    let hi := s.getD (f + 1) lo
    lo + (rank - (f : ℚ)) * (hi - lo)

/-- Clamp into the unit interval, np.clip(x, 0, 1). -/
def clip01 (x : ℚ) : ℚ :=
  min 1 (max 0 x)

/-- Embeds ImageUtils.normalize_band (image_utils.py lines 128 to 152) at the
default percentile range (2, 98): rescale so the two percentiles map to 0 and
1 and clip, unless the high percentile does not exceed the low one, in which
case an all-zero array of the same shape is returned.  An empty band makes
np.percentile raise and the except branch of the source also returns the
all-zero (empty-shaped) array, so the function never fails. -/
def normalize_band (band_data : List (List ℚ)) : List (List ℚ) :=
  let flat := band_data.flatten
  if flat.isEmpty then band_data.map fun row => row.map fun _ => 0
  else
    let band_min := percentile flat 2
    let band_max := percentile flat 98
    if band_min < band_max then
      band_data.map fun row =>
        row.map fun x => clip01 ((x - band_min) / (band_max - band_min))
    else
      band_data.map fun row => row.map fun _ => 0

/-- Python list indexing semantics for a band index: a negative index wraps
once from the end; an index out of the range from minus bands to bands minus
one raises IndexError (none here). -/
def pyIndex (bands : ℕ) (i : ℤ) : Option ℕ :=
  let j := if i < 0 then (bands : ℤ) + i else i
  if 0 ≤ j ∧ j < (bands : ℤ) then some j.toNat else none

/-- Stacking three equal-shaped bands along a new last axis, np.stack with
axis 2: the result has shape (height, width, 3). -/
def stack_axis2 (r g b : List (List ℚ)) : List (List (List ℚ)) :=
  (List.range r.length).map fun i =>
    (List.range ((r.getD i []).length)).map fun j =>
      [(r.getD i []).getD j 0, (g.getD i []).getD j 0, (b.getD i []).getD j 0]

/-- Embeds ImageUtils.create_rgb_composite (image_utils.py lines 154 to 200):
reject the triple when its maximum is at least the band count (ValueError,
caught into none); otherwise select the three bands with Python indexing
(IndexError on a too-negative index is also caught into none), normalize each
independently when requested, and stack along axis 2. -/
def create_rgb_composite (image_data : List (List (List ℚ)))
    (band_indices : ℤ × ℤ × ℤ) (normalize : Bool) :
    Option (List (List (List ℚ))) :=
  let bands := (shape3 image_data).1
  if max band_indices.1 (max band_indices.2.1 band_indices.2.2) ≥ (bands : ℤ) then
    none
  else
    match pyIndex bands band_indices.1, pyIndex bands band_indices.2.1,
        pyIndex bands band_indices.2.2 with
    | some ri, some gi, some bi =>
      let red_band := image_data.getD ri []
      let green_band := image_data.getD gi []
      let blue_band := image_data.getD bi []
      if normalize then
        some (stack_axis2 (normalize_band red_band) (normalize_band green_band)
          (normalize_band blue_band))
      else
        some (stack_axis2 red_band green_band blue_band)
    | _, _, _ => none

/-- Raw numpy array of 2 or 3 axes, as returned by tifffile.imread before the
shape normalization of the two loaders. -/
inductive NpArr where
  | arr2 : List (List ℚ) → NpArr
  | arr3 : List (List (List ℚ)) → NpArr
  deriving DecidableEq, Repr

/-- Embeds np.transpose(a, (2, 0, 1)): the entry of the result at
(k, i, j) is the entry of the input at (i, j, k); the shape turns from
(d1, d2, d3) into (d3, d1, d2). -/
def transpose_201 (a : List (List (List ℚ))) : List (List (List ℚ)) :=
  let s := shape3 a
  (List.range s.2.2).map fun k =>
    (List.range s.1).map fun i =>
      (List.range s.2.1).map fun j => ((a.getD i []).getD j []).getD k 0

/-- Embeds the shape normalization of ImageUtils.load_image for TIFF input
(image_utils.py lines 39 to 48): a 2-axis array is promoted to one band; a
3-axis array is transposed to band-major exactly when its last axis is both
smaller than its first axis and at most 5. -/
def load_image_normalize (a : NpArr) : NpArr :=
  match a with
  | .arr2 d => .arr3 [d]
  | .arr3 d =>
    let s := shape3 d
    if s.2.2 < s.1 ∧ s.2.2 ≤ 5 then .arr3 (transpose_201 d) else .arr3 d

/-- Embeds the shape normalization of ImageCropper.crop_from_file
(image_cropper.py lines 232 to 238): a 2-axis array is promoted to one band;
a 3-axis array is transposed to band-major exactly when its last axis is
smaller than its first axis, with no bound of 5 on the last axis. -/
def crop_from_file_normalize (a : NpArr) : NpArr :=
  match a with
  | .arr2 d => .arr3 [d]
  | .arr3 d =>
    let s := shape3 d
    if s.2.2 < s.1 then .arr3 (transpose_201 d) else .arr3 d

section BoundsLemmas

/-- Helper: after the final clamp, the shift-adjusted axis range is exactly
twice the half size whenever the axis is at least that long, and it always
stays inside the image. -/
theorem adjustAxis_exact (c half : ℤ) (len : ℕ) (h0 : 0 ≤ half)
    (hlen : 2 * half ≤ (len : ℤ)) :
    min (len : ℤ) (adjustAxis (c - half) (c + half) len).2 -
      max 0 (adjustAxis (c - half) (c + half) len).1 = 2 * half ∧
    0 ≤ max 0 (adjustAxis (c - half) (c + half) len).1 ∧
    min (len : ℤ) (adjustAxis (c - half) (c + half) len).2 ≤ (len : ℤ) := by
  unfold adjustAxis
  split_ifs with h1 h2
  · rw [abs_of_neg h1]
    refine ⟨?_, ?_, ?_⟩ <;> simp <;> omega
  · refine ⟨?_, ?_, ?_⟩ <;> simp <;> omega
  · refine ⟨?_, ?_, ?_⟩ <;> simp <;> omega

/-- Helper: with a positive half size and a nonempty axis, the clamped
shift-adjusted axis range is nonempty and inside the image. -/
theorem adjustAxis_nonempty (c half : ℤ) (len : ℕ) (h0 : 1 ≤ half)
    (hlen : 1 ≤ len) :
    0 ≤ max 0 (adjustAxis (c - half) (c + half) len).1 ∧
    max 0 (adjustAxis (c - half) (c + half) len).1 <
      min (len : ℤ) (adjustAxis (c - half) (c + half) len).2 ∧
    min (len : ℤ) (adjustAxis (c - half) (c + half) len).2 ≤ (len : ℤ) := by
  unfold adjustAxis
  split_ifs with h1 h2
  · rw [abs_of_neg h1]
    refine ⟨?_, ?_, ?_⟩ <;> simp <;> omega
  · refine ⟨?_, ?_, ?_⟩ <;> simp <;> omega
  · refine ⟨?_, ?_, ?_⟩ <;> simp <;> omega

end BoundsLemmas

/-- C1 counterexample: on a 10 by 10 image with crop size 10, the center
(1, 1) is strictly inside the image and half_size = 5 is at most
min(width, height) / 2 = 5, yet the naive clamp returns the box
(0, 0, 6, 6), whose width 6 is strictly below the requested size, so the
box is neither of size 10 by 10 nor accepted without adjustment. -/
theorem C1_counterexample :
    ((0 : ℤ) ≤ 1 ∧ (1 : ℤ) < 10 ∧ (10 / 2 : ℕ) ≤ min 10 10 / 2) ∧
    calculate_crop_bounds 1 1 10 10 10 = (0, 0, 6, 6) ∧
    (calculate_crop_bounds 1 1 10 10 10).2.2.1 -
      (calculate_crop_bounds 1 1 10 10 10).1 < 10 := by
  refine ⟨by decide, by decide, by decide⟩

/-- C1 (amended): for an even crop size, if the center is at least half_size
away from every image edge (half_size ≤ center and center + half_size within
the axis), the naive clamp returns the unclamped centered box, that box is
exactly size by size, and it passes the acceptance test of
crop_multispectral_image, so no adjustment happens.  For odd sizes the naive
box has side 2 * (size / 2) = size - 1 and is never accepted, and for centers
closer than half_size to an edge the clamped box is smaller than size, so
both restrictions are forced by the code. -/
theorem C1_naive_clamp_exact (center_x center_y : ℤ) (crop_size width height : ℕ)
    (heven : crop_size % 2 = 0)
    (hx1 : ((crop_size / 2 : ℕ) : ℤ) ≤ center_x)
    (hx2 : center_x + ((crop_size / 2 : ℕ) : ℤ) ≤ (width : ℤ))
    (hy1 : ((crop_size / 2 : ℕ) : ℤ) ≤ center_y)
    (hy2 : center_y + ((crop_size / 2 : ℕ) : ℤ) ≤ (height : ℤ)) :
    calculate_crop_bounds center_x center_y crop_size width height =
      (center_x - ((crop_size / 2 : ℕ) : ℤ), center_y - ((crop_size / 2 : ℕ) : ℤ),
        center_x + ((crop_size / 2 : ℕ) : ℤ), center_y + ((crop_size / 2 : ℕ) : ℤ)) ∧
    (calculate_crop_bounds center_x center_y crop_size width height).2.2.1 -
      (calculate_crop_bounds center_x center_y crop_size width height).1 =
        (crop_size : ℤ) ∧
    (calculate_crop_bounds center_x center_y crop_size width height).2.2.2 -
      (calculate_crop_bounds center_x center_y crop_size width height).2.1 =
        (crop_size : ℤ) ∧
    ¬((calculate_crop_bounds center_x center_y crop_size width height).2.2.1 -
        (calculate_crop_bounds center_x center_y crop_size width height).1 <
          (crop_size : ℤ) ∨
      (calculate_crop_bounds center_x center_y crop_size width height).2.2.2 -
        (calculate_crop_bounds center_x center_y crop_size width height).2.1 <
          (crop_size : ℤ)) := by
  unfold calculate_crop_bounds
  refine ⟨?_, ?_, ?_, ?_⟩ <;> simp <;> omega

/-- Witness for C1: a 100 by 100 image, crop size 20, center (50, 50). -/
theorem C1_witness :
    calculate_crop_bounds 50 50 20 100 100 = (40, 40, 60, 60) := by
  have h := C1_naive_clamp_exact 50 50 20 100 100 (by decide) (by decide)
    (by decide) (by decide) (by decide)
  simpa using h.1

/-- In-range bounds invariant of the spec data model for a tuple
(x1, y1, x2, y2): columns satisfy 0 ≤ x1 < x2 ≤ width and rows satisfy
0 ≤ y1 < y2 ≤ height. -/
def BoundsOK (bd : ℤ × ℤ × ℤ × ℤ) (width height : ℕ) : Prop :=
  0 ≤ bd.1 ∧ bd.1 < bd.2.2.1 ∧ bd.2.2.1 ≤ (width : ℤ) ∧
  0 ≤ bd.2.1 ∧ bd.2.1 < bd.2.2.2 ∧ bd.2.2.2 ≤ (height : ℤ)

instance (bd : ℤ × ℤ × ℤ × ℤ) (width height : ℕ) :
    Decidable (BoundsOK bd width height) := by
  unfold BoundsOK; infer_instance

/-- C9 counterexample: the invariant start < end fails on bounds the code
actually produces.  With crop size 1 (so half_size = 0) and center (5, 5)
inside a 10 by 10 image, the naive clamp returns the empty box
(5, 5, 5, 5); and with center (-100, 5) the naive clamp returns
x2 = min(10, -98) = -98 < 0 ≤ x1, violating 0 ≤ start < end. -/
theorem C9_counterexample :
    (0 < 1 ∧ calculate_crop_bounds 5 5 1 10 10 = (5, 5, 5, 5) ∧
      ¬BoundsOK (calculate_crop_bounds 5 5 1 10 10) 10 10) ∧
    ((calculate_crop_bounds (-100) 5 4 10 10).2.2.1 < 0 ∧
      ¬BoundsOK (calculate_crop_bounds (-100) 5 4 10 10) 10 10) := by
  refine ⟨⟨by decide, by decide, by decide⟩, by decide, by decide⟩

/-- C9 (amended): for crop sizes of at least 2 and centers inside the image,
every bounds tuple the code produces — the naive clamp, the shift
adjustment, and both bounds reported by get_crop_info — satisfies
0 ≤ x1 < x2 ≤ width and 0 ≤ y1 < y2 ≤ height.  The restrictions are forced:
size 1 yields an empty naive box and a center outside the image yields a
naive end below 0 (see the counterexample). -/
theorem C9_resolved_bounds_invariant (center_x center_y : ℤ)
    (crop_size bands width height : ℕ) (hsize : 2 ≤ crop_size)
    (hcx : 0 ≤ center_x ∧ center_x < (width : ℤ))
    (hcy : 0 ≤ center_y ∧ center_y < (height : ℤ)) :
    BoundsOK (calculate_crop_bounds center_x center_y crop_size width height)
      width height ∧
    BoundsOK (adjust_crop_bounds center_x center_y crop_size width height)
      width height ∧
    BoundsOK ((get_crop_info (bands, height, width) center_x center_y
      crop_size).original_bounds) width height ∧
    BoundsOK ((get_crop_info (bands, height, width) center_x center_y
      crop_size).adjusted_bounds) width height := by
  have hhalf : 1 ≤ crop_size / 2 := by omega
  have hnaive : BoundsOK
      (calculate_crop_bounds center_x center_y crop_size width height)
      width height := by
    unfold BoundsOK calculate_crop_bounds
    refine ⟨?_, ?_, ?_, ?_, ?_, ?_⟩ <;> simp <;> omega
  have hhalfZ : (1 : ℤ) ≤ ((crop_size / 2 : ℕ) : ℤ) := by exact_mod_cast hhalf
  have hwpos : 1 ≤ width := by omega
  have hhpos : 1 ≤ height := by omega
  have hx := adjustAxis_nonempty center_x ((crop_size / 2 : ℕ) : ℤ) width hhalfZ hwpos
  have hy := adjustAxis_nonempty center_y ((crop_size / 2 : ℕ) : ℤ) height hhalfZ hhpos
  have hadj : BoundsOK
      (adjust_crop_bounds center_x center_y crop_size width height)
      width height := by
    unfold BoundsOK adjust_crop_bounds
    exact ⟨hx.1, hx.2.1, hx.2.2, hy.1, hy.2.1, hy.2.2⟩
  refine ⟨hnaive, hadj, ?_, ?_⟩
  · unfold get_crop_info
    dsimp only
    split_ifs <;> simpa using hnaive
  · unfold get_crop_info
    dsimp only
    split_ifs <;> simp <;> [exact hnaive; exact hadj]

/-- Witness for C9: crop size 4, center (5, 5), a 10 by 10 image. -/
theorem C9_witness :
    BoundsOK (calculate_crop_bounds 5 5 4 10 10) 10 10 ∧
    BoundsOK (adjust_crop_bounds 5 5 4 10 10) 10 10 ∧
    BoundsOK ((get_crop_info (1, 10, 10) 5 5 4).original_bounds) 10 10 ∧
    BoundsOK ((get_crop_info (1, 10, 10) 5 5 4).adjusted_bounds) 10 10 :=
  C9_resolved_bounds_invariant 5 5 4 1 10 10 (by decide)
    ⟨by decide, by decide⟩ ⟨by decide, by decide⟩

/-- Concrete 1-band 5 by 5 zero image, shared by witnesses. -/
def img5 : NpArray3 :=
  { dtype := .uint8,
    data := List.replicate 1 (List.replicate 5 (List.replicate 5 (0 : ℚ))) }

/-- C3: when the image is smaller than the requested crop size on at least
one axis, crop_multispectral_image reports a hard failure (none, the source
returns False), and neither the naive nor the adjusted bounds exceed the
image: both boxes have nonnegative starts and ends at most the axis
lengths, so no output is produced. -/
theorem C3_crop_infeasible (image : NpArray3) (center_x center_y : ℤ)
    (crop_size b h w : ℕ) (preserve_bands : Bool)
    (hshape : shape3 image.data = (b, h, w))
    (hsmall : w < crop_size ∨ h < crop_size) :
    crop_multispectral_image image center_x center_y crop_size preserve_bands =
      none ∧
    (0 ≤ (calculate_crop_bounds center_x center_y crop_size w h).1 ∧
      (calculate_crop_bounds center_x center_y crop_size w h).2.2.1 ≤ (w : ℤ) ∧
      0 ≤ (calculate_crop_bounds center_x center_y crop_size w h).2.1 ∧
      (calculate_crop_bounds center_x center_y crop_size w h).2.2.2 ≤ (h : ℤ)) ∧
    (0 ≤ (adjust_crop_bounds center_x center_y crop_size w h).1 ∧
      (adjust_crop_bounds center_x center_y crop_size w h).2.2.1 ≤ (w : ℤ) ∧
      0 ≤ (adjust_crop_bounds center_x center_y crop_size w h).2.1 ∧
      (adjust_crop_bounds center_x center_y crop_size w h).2.2.2 ≤ (h : ℤ)) := by
  have hmain : crop_multispectral_image image center_x center_y crop_size
      preserve_bands = none := by
    unfold crop_multispectral_image adjust_crop_bounds calculate_crop_bounds
    rw [hshape]
    simp only
    split_ifs with h1 h2
    · rfl
    · exfalso; revert h2; simp; omega
    · exfalso; revert h1; simp; omega
  refine ⟨hmain, ?_, ?_⟩
  · unfold calculate_crop_bounds
    refine ⟨?_, ?_, ?_, ?_⟩ <;> simp <;> omega
  · unfold adjust_crop_bounds
    refine ⟨?_, ?_, ?_, ?_⟩ <;> simp <;> omega

/-- Witness for C3: a 5 by 5 image and a requested 300 by 300 crop. -/
theorem C3_witness :
    (5 : ℕ) < 300 ∧
    crop_multispectral_image img5 50 50 300 true = none :=
  ⟨by decide,
    (C3_crop_infeasible img5 50 50 300 1 5 5 true rfl (Or.inl (by decide))).1⟩

/-- Helper: the default head of a nonempty list is a member. -/
theorem headD_mem_of_ne_nil {α : Type} (l : List α) (d : α) (h : l ≠ []) :
    l.headD d ∈ l := by
  cases l with
  | nil => exact absurd rfl h
  | cons a t => simp

/-- Helper: shape of a single sliced band. -/
theorem sliceRC_shape (band : List (List ℚ)) (h w : ℕ)
    (hlen : band.length = h) (hrows : ∀ row ∈ band, row.length = w)
    (y1 y2 x1 x2 : ℤ) (hy2 : y2 ≤ (h : ℤ)) (hx2 : x2 ≤ (w : ℤ)) :
    (sliceRC band y1 y2 x1 x2).length = (y2.toNat - y1.toNat) ∧
    ∀ row ∈ sliceRC band y1 y2 x1 x2, row.length = (x2.toNat - x1.toNat) := by
  constructor
  · simp [sliceRC, hlen] <;> omega
  · intro row hrow
    simp only [sliceRC, List.mem_map] at hrow
    obtain ⟨row0, hrow0, rfl⟩ := hrow
    have hmem : row0 ∈ band :=
      List.mem_of_mem_take (List.mem_of_mem_drop hrow0)
    have hw0 := hrows row0 hmem
    simp [hw0] <;> omega

/-- Helper: band count and per-band shape of the extraction step. -/
theorem extract_crop_shape (data : List (List (List ℚ))) (h w : ℕ)
    (hrect : Rect3 data h w)
    (y1 y2 x1 x2 : ℤ) (hy2 : y2 ≤ (h : ℤ)) (hx2 : x2 ≤ (w : ℤ)) (p : Bool) :
    (extract_crop data y1 y2 x1 x2 p).length =
      (if p then data.length else min 3 data.length) ∧
    ∀ band ∈ extract_crop data y1 y2 x1 x2 p,
      band.length = (y2.toNat - y1.toNat) ∧
      ∀ row ∈ band, row.length = (x2.toNat - x1.toNat) := by
  have hslice : ∀ band0 ∈ data,
      (sliceRC band0 y1 y2 x1 x2).length = (y2.toNat - y1.toNat) ∧
      ∀ row ∈ sliceRC band0 y1 y2 x1 x2, row.length = (x2.toNat - x1.toNat) := by
    intro band0 hmem
    exact sliceRC_shape band0 h w (hrect band0 hmem).1 (hrect band0 hmem).2
      y1 y2 x1 x2 hy2 hx2
  unfold extract_crop
  cases p
  · refine ⟨by simp <;> omega, ?_⟩
    intro band hband
    simp only [Bool.false_eq_true, if_false, List.mem_map] at hband
    obtain ⟨band0, hband0, rfl⟩ := hband
    exact hslice band0 (List.mem_of_mem_take hband0)
  · refine ⟨by simp, ?_⟩
    intro band hband
    simp only [if_pos, List.mem_map] at hband
    obtain ⟨band0, hband0, rfl⟩ := hband
    exact hslice band0 hband0

/-- Helper: shape3 of the extraction result, when at least one band exists
and the sliced box is nonempty. -/
theorem extract_crop_shape3 (data : List (List (List ℚ))) (h w : ℕ)
    (hrect : Rect3 data h w) (hb : 1 ≤ data.length)
    (y1 y2 x1 x2 : ℤ) (hy1 : 0 ≤ y1) (hy12 : y1 < y2) (hy2 : y2 ≤ (h : ℤ))
    (hx1 : 0 ≤ x1) (hx12 : x1 < x2) (hx2 : x2 ≤ (w : ℤ)) (p : Bool) :
    shape3 (extract_crop data y1 y2 x1 x2 p) =
      ((if p then data.length else min 3 data.length),
        y2.toNat - y1.toNat, x2.toNat - x1.toNat) := by
  obtain ⟨hlen, hbands⟩ := extract_crop_shape data h w hrect y1 y2 x1 x2 hy2 hx2 p
  have hlenpos : 0 < (extract_crop data y1 y2 x1 x2 p).length := by
    rw [hlen]
    cases p <;> simp <;> omega
  have hne : extract_crop data y1 y2 x1 x2 p ≠ [] := by
    intro hnil
    rw [hnil] at hlenpos
    simp at hlenpos
  have hhead := hbands _ (headD_mem_of_ne_nil _ [] hne)
  have hrowne : ((extract_crop data y1 y2 x1 x2 p).headD []) ≠ [] := by
    intro hnil
    have := hhead.1
    rw [hnil] at this
    simp at this
    omega
  have hrow := hhead.2 _ (headD_mem_of_ne_nil _ [] hrowne)
  unfold shape3
  rw [hlen, hhead.1, hrow]

/-- Helper: when the resolved bounds describe an exactly crop_size sized box
inside the image, crop_finish is extraction alone (no resize). -/
theorem crop_finish_eq (image : NpArray3) (crop_size : ℕ) (p : Bool)
    (x1 y1 x2 y2 : ℤ) (h w : ℕ)
    (hrect : Rect3 image.data h w) (hb : 1 ≤ image.data.length)
    (hpos : 0 < crop_size)
    (hy1 : 0 ≤ y1) (hy : y2 - y1 = (crop_size : ℤ)) (hy2 : y2 ≤ (h : ℤ))
    (hx1 : 0 ≤ x1) (hx : x2 - x1 = (crop_size : ℤ)) (hx2 : x2 ≤ (w : ℤ)) :
    crop_finish image crop_size p x1 y1 x2 y2 =
      { dtype := image.dtype,
        data := extract_crop image.data y1 y2 x1 x2 p } := by
  have hsh3 := extract_crop_shape3 image.data h w hrect hb y1 y2 x1 x2
    hy1 (by omega) hy2 hx1 (by omega) hx2 p
  have hyn : y2.toNat - y1.toNat = crop_size := by omega
  have hxn : x2.toNat - x1.toNat = crop_size := by omega
  rw [hyn, hxn] at hsh3
  unfold crop_finish
  dsimp only
  rw [hsh3]
  simp

/-- Concrete 1-band 10 by 10 zero image, shared by the C2 theorems. -/
def img10 : NpArray3 :=
  { dtype := .uint8,
    data := List.replicate 1 (List.replicate 10 (List.replicate 10 (0 : ℚ))) }

/-- C2 counterexample: for the odd crop size 3 on a 10 by 10 image (both
axes at least 3) with center (5, 5), the shift adjustment returns the box
(4, 4, 6, 6), which is 2 by 2 rather than 3 by 3, and the crop fails
(returns none, False in the source), because 2 * (3 / 2) = 2 < 3. -/
theorem C2_counterexample :
    ((3 : ℕ) ≤ 10 ∧ adjust_crop_bounds 5 5 3 10 10 = (4, 4, 6, 6)) ∧
    (adjust_crop_bounds 5 5 3 10 10).2.2.1 -
      (adjust_crop_bounds 5 5 3 10 10).1 ≠ 3 ∧
    crop_multispectral_image img10 5 5 3 true = none := by
  refine ⟨⟨by decide, by decide⟩, by decide, by decide⟩

/-- C2 (amended): for an even crop size and an image at least crop_size on
both axes, for every center (even outside the image) the shift adjustment
returns a box of exactly crop_size by crop_size lying inside
[0, width] x [0, height], and the crop succeeds, producing an array of
shape (bands kept, crop_size, crop_size).  The evenness restriction is
forced: for odd sizes the ideal box has side size - 1 and the crop always
fails (see the counterexample). -/
theorem C2_adjusted_crop_exact (image : NpArray3) (center_x center_y : ℤ)
    (crop_size : ℕ) (preserve_bands : Bool) (b h w : ℕ)
    (hshape : shape3 image.data = (b, h, w)) (hrect : Rect3 image.data h w)
    (hb : 1 ≤ b) (heven : crop_size % 2 = 0) (hpos : 0 < crop_size)
    (hw : crop_size ≤ w) (hh : crop_size ≤ h) :
    (0 ≤ (adjust_crop_bounds center_x center_y crop_size w h).1 ∧
      (adjust_crop_bounds center_x center_y crop_size w h).2.2.1 -
        (adjust_crop_bounds center_x center_y crop_size w h).1 = (crop_size : ℤ) ∧
      (adjust_crop_bounds center_x center_y crop_size w h).2.2.1 ≤ (w : ℤ) ∧
      0 ≤ (adjust_crop_bounds center_x center_y crop_size w h).2.1 ∧
      (adjust_crop_bounds center_x center_y crop_size w h).2.2.2 -
        (adjust_crop_bounds center_x center_y crop_size w h).2.1 = (crop_size : ℤ) ∧
      (adjust_crop_bounds center_x center_y crop_size w h).2.2.2 ≤ (h : ℤ)) ∧
    ∃ out, crop_multispectral_image image center_x center_y crop_size
        preserve_bands = some out ∧
      shape3 out.data =
        ((if preserve_bands then b else min 3 b), crop_size, crop_size) := by
  have hblen : image.data.length = b := by
    have := congrArg Prod.fst hshape
    simpa [shape3] using this
  have hhalfexact : 2 * ((crop_size / 2 : ℕ) : ℤ) = (crop_size : ℤ) := by omega
  have hx := adjustAxis_exact center_x ((crop_size / 2 : ℕ) : ℤ) w
    (by omega) (by omega)
  have hy := adjustAxis_exact center_y ((crop_size / 2 : ℕ) : ℤ) h
    (by omega) (by omega)
  have habs : 0 ≤ (adjust_crop_bounds center_x center_y crop_size w h).1 ∧
      (adjust_crop_bounds center_x center_y crop_size w h).2.2.1 -
        (adjust_crop_bounds center_x center_y crop_size w h).1 = (crop_size : ℤ) ∧
      (adjust_crop_bounds center_x center_y crop_size w h).2.2.1 ≤ (w : ℤ) ∧
      0 ≤ (adjust_crop_bounds center_x center_y crop_size w h).2.1 ∧
      (adjust_crop_bounds center_x center_y crop_size w h).2.2.2 -
        (adjust_crop_bounds center_x center_y crop_size w h).2.1 = (crop_size : ℤ) ∧
      (adjust_crop_bounds center_x center_y crop_size w h).2.2.2 ≤ (h : ℤ) := by
    unfold adjust_crop_bounds
    dsimp only
    exact ⟨hx.2.1, by omega, hx.2.2, hy.2.1, by omega, hy.2.2⟩
  have hcalc : (calculate_crop_bounds center_x center_y crop_size w h).1 =
      max 0 (center_x - ((crop_size / 2 : ℕ) : ℤ)) ∧
      (calculate_crop_bounds center_x center_y crop_size w h).2.1 =
        max 0 (center_y - ((crop_size / 2 : ℕ) : ℤ)) ∧
      (calculate_crop_bounds center_x center_y crop_size w h).2.2.1 =
        min (w : ℤ) (center_x + ((crop_size / 2 : ℕ) : ℤ)) ∧
      (calculate_crop_bounds center_x center_y crop_size w h).2.2.2 =
        min (h : ℤ) (center_y + ((crop_size / 2 : ℕ) : ℤ)) := by
    unfold calculate_crop_bounds
    dsimp only
    exact ⟨rfl, rfl, rfl, rfl⟩
  refine ⟨habs, ?_⟩
  unfold crop_multispectral_image
  rw [hshape]
  dsimp only
  set nb := calculate_crop_bounds center_x center_y crop_size w h with hnbdef
  set ab := adjust_crop_bounds center_x center_y crop_size w h with habdef
  by_cases h1 : nb.2.2.1 - nb.1 < (crop_size : ℤ) ∨
      nb.2.2.2 - nb.2.1 < (crop_size : ℤ)
  · rw [if_pos h1]
    have h2 : ¬(ab.2.2.1 - ab.1 < (crop_size : ℤ) ∨
        ab.2.2.2 - ab.2.1 < (crop_size : ℤ)) := by omega
    rw [if_neg h2]
    refine ⟨_, rfl, ?_⟩
    rw [crop_finish_eq image crop_size preserve_bands ab.1 ab.2.1 ab.2.2.1
      ab.2.2.2 h w hrect (by omega) hpos habs.2.2.2.1 (by omega) (by omega)
      habs.1 (by omega) (by omega)]
    rw [extract_crop_shape3 image.data h w hrect (by omega) ab.2.1 ab.2.2.2
      ab.1 ab.2.2.1 habs.2.2.2.1 (by omega) (by omega) habs.1 (by omega)
      (by omega) preserve_bands]
    have hyy : ab.2.2.2.toNat - ab.2.1.toNat = crop_size := by omega
    have hxx : ab.2.2.1.toNat - ab.1.toNat = crop_size := by omega
    rw [hyy, hxx, hblen]
  · rw [if_neg h1]
    refine ⟨_, rfl, ?_⟩
    rw [crop_finish_eq image crop_size preserve_bands nb.1 nb.2.1 nb.2.2.1
      nb.2.2.2 h w hrect (by omega) hpos (by omega) (by omega) (by omega)
      (by omega) (by omega) (by omega)]
    rw [extract_crop_shape3 image.data h w hrect (by omega) nb.2.1 nb.2.2.2
      nb.1 nb.2.2.1 (by omega) (by omega) (by omega) (by omega) (by omega)
      (by omega) preserve_bands]
    have hyy : nb.2.2.2.toNat - nb.2.1.toNat = crop_size := by omega
    have hxx : nb.2.2.1.toNat - nb.1.toNat = crop_size := by omega
    rw [hyy, hxx, hblen]

/-- Witness for C2: crop size 4 centered on the corner (0, 0) of the 10 by
10 one-band image. -/
theorem C2_witness :
    (0 ≤ (adjust_crop_bounds 0 0 4 10 10).1 ∧
      (adjust_crop_bounds 0 0 4 10 10).2.2.1 -
        (adjust_crop_bounds 0 0 4 10 10).1 = (4 : ℤ) ∧
      (adjust_crop_bounds 0 0 4 10 10).2.2.1 ≤ (10 : ℤ) ∧
      0 ≤ (adjust_crop_bounds 0 0 4 10 10).2.1 ∧
      (adjust_crop_bounds 0 0 4 10 10).2.2.2 -
        (adjust_crop_bounds 0 0 4 10 10).2.1 = (4 : ℤ) ∧
      (adjust_crop_bounds 0 0 4 10 10).2.2.2 ≤ (10 : ℤ)) ∧
    ∃ out, crop_multispectral_image img10 0 0 4 true = some out ∧
      shape3 out.data = ((if true then 1 else min 3 1), 4, 4) :=
  C2_adjusted_crop_exact img10 0 0 4 true 1 10 10 rfl (by decide) (by decide)
    (by decide) (by decide) (by decide) (by decide)

/-- Helper: an in-bounds getD is a member of the list. -/
theorem getD_mem {α : Type} (l : List α) (i : ℕ) (d : α) (h : i < l.length) :
    l.getD i d ∈ l := by
  rw [List.getD_eq_getElem l d h]
  exact List.getElem_mem h

/-- Helper: normalize_band preserves the outer length and each row comes
from a source row of the same length. -/
theorem normalize_band_shape (band : List (List ℚ)) :
    (normalize_band band).length = band.length ∧
    ∀ row ∈ normalize_band band, ∃ row0 ∈ band, row.length = row0.length := by
  unfold normalize_band
  dsimp only
  split_ifs
  all_goals
    refine ⟨by simp, ?_⟩
    intro row hrow
    simp only [List.mem_map] at hrow
    obtain ⟨row0, h0, rfl⟩ := hrow
    exact ⟨row0, h0, by simp⟩

/-- Helper: every entry normalize_band produces lies in the unit interval. -/
theorem normalize_band_mem_unit (band : List (List ℚ)) :
    ∀ row ∈ normalize_band band, ∀ x ∈ row, 0 ≤ x ∧ x ≤ 1 := by
  unfold normalize_band
  dsimp only
  split_ifs with h1 h2
  · intro row hrow x hx
    simp only [List.mem_map] at hrow
    obtain ⟨row0, _, rfl⟩ := hrow
    simp only [List.mem_map] at hx
    obtain ⟨x0, _, rfl⟩ := hx
    norm_num
  · intro row hrow x hx
    simp only [List.mem_map] at hrow
    obtain ⟨row0, _, rfl⟩ := hrow
    simp only [List.mem_map] at hx
    obtain ⟨x0, _, rfl⟩ := hx
    unfold clip01
    refine ⟨le_min (by norm_num) (le_max_left _ _), min_le_left _ _⟩
  · intro row hrow x hx
    simp only [List.mem_map] at hrow
    obtain ⟨row0, _, rfl⟩ := hrow
    simp only [List.mem_map] at hx
    obtain ⟨x0, _, rfl⟩ := hx
    norm_num

/-- Helper: when the high percentile does not exceed the low one,
normalize_band returns all zeros. -/
theorem normalize_band_degenerate (band : List (List ℚ))
    (hdeg : percentile band.flatten 98 ≤ percentile band.flatten 2) :
    ∀ row ∈ normalize_band band, ∀ x ∈ row, x = 0 := by
  unfold normalize_band
  dsimp only
  split_ifs with h1 h2
  · intro row hrow x hx
    simp only [List.mem_map] at hrow
    obtain ⟨row0, _, rfl⟩ := hrow
    simp only [List.mem_map] at hx
    obtain ⟨x0, _, rfl⟩ := hx
    rfl
  · exact absurd h2 (not_lt.mpr hdeg)
  · intro row hrow x hx
    simp only [List.mem_map] at hrow
    obtain ⟨row0, _, rfl⟩ := hrow
    simp only [List.mem_map] at hx
    obtain ⟨x0, _, rfl⟩ := hx
    rfl

/-- C4: normalize_band always returns an array of the same shape with every
entry inside the unit interval, and when the 98th percentile does not exceed
the 2nd percentile (for example a constant band) the result is all zeros,
never all ones; the function is total — the only division is guarded by the
strict percentile comparison, so it never divides by zero and never
raises. -/
theorem C4_normalize_unit_interval (band_data : List (List ℚ)) :
    (normalize_band band_data).length = band_data.length ∧
    (normalize_band band_data).map List.length = band_data.map List.length ∧
    (∀ row ∈ normalize_band band_data, ∀ x ∈ row, 0 ≤ x ∧ x ≤ 1) ∧
    (percentile band_data.flatten 98 ≤ percentile band_data.flatten 2 →
      ∀ row ∈ normalize_band band_data, ∀ x ∈ row, x = 0) := by
  refine ⟨(normalize_band_shape band_data).1, ?_,
    normalize_band_mem_unit band_data, normalize_band_degenerate band_data⟩
  unfold normalize_band
  dsimp only
  split_ifs <;> simp [List.map_map, Function.comp]

/-- Witness for C4: the constant 2 by 2 band of value 42 normalizes to all
zeros (both percentiles evaluate to 42). -/
theorem C4_witness :
    percentile ([[(42 : ℚ), 42], [42, 42]]).flatten 98 ≤
      percentile ([[(42 : ℚ), 42], [42, 42]]).flatten 2 ∧
    ∀ row ∈ normalize_band [[(42 : ℚ), 42], [42, 42]], ∀ x ∈ row, x = 0 := by
  have hle : percentile ([[(42 : ℚ), 42], [42, 42]]).flatten 98 ≤
      percentile ([[(42 : ℚ), 42], [42, 42]]).flatten 2 := by
    norm_num [percentile, sortQ, insertSorted, List.flatten, Int.toNat]
  exact ⟨hle, (C4_normalize_unit_interval [[(42 : ℚ), 42], [42, 42]]).2.2.2 hle⟩

/-- C5: with preserve_bands the extraction returns every band sliced to the
bounds; without it, exactly the first min(3, bands) bands, each sliced the
same way, so a 1-band source still yields a 1-band result rather than an
error.  The result is assembled purely from fresh slices of the source, which
is never mutated. -/
theorem C5_extract_policy (image_data : List (List (List ℚ)))
    (y1 y2 x1 x2 : ℤ) :
    (extract_crop image_data y1 y2 x1 x2 true).length = image_data.length ∧
    (∀ i : ℕ, (extract_crop image_data y1 y2 x1 x2 true)[i]? =
      (image_data[i]?).map fun band => sliceRC band y1 y2 x1 x2) ∧
    (extract_crop image_data y1 y2 x1 x2 false).length =
      min 3 image_data.length ∧
    (∀ i : ℕ, i < min 3 image_data.length →
      (extract_crop image_data y1 y2 x1 x2 false)[i]? =
        (image_data[i]?).map fun band => sliceRC band y1 y2 x1 x2) ∧
    (image_data.length = 1 →
      (extract_crop image_data y1 y2 x1 x2 false).length = 1) := by
  refine ⟨by simp [extract_crop], ?_, ?_, ?_, ?_⟩
  · intro i
    simp [extract_crop]
  · simp [extract_crop]
  · intro i hi
    simp only [extract_crop, Bool.false_eq_true, if_false, List.getElem?_map]
    rw [List.getElem?_take_of_lt (by omega)]
  · intro h1
    simp [extract_crop, h1]

/-- Witness for C5: a 1-band source with preserve_bands false keeps its
single band. -/
theorem C5_witness :
    (extract_crop img5.data 0 2 0 2 false).length = 1 :=
  (C5_extract_policy img5.data 0 2 0 2).2.2.2.2 (by decide)

/-- Helper: the modelled resampler always returns a target by target grid. -/
theorem pilResize_shape (band : List (List ℚ)) (t : ℕ) :
    (pilResize band t).length = t ∧
    ∀ row ∈ pilResize band t, row.length = t := by
  unfold pilResize
  dsimp only
  refine ⟨by simp, ?_⟩
  intro row hrow
  simp only [List.mem_map] at hrow
  obtain ⟨i, _, rfl⟩ := hrow
  simp

/-- C6: resizing keeps the dtype tag; a crop that is already target by target
is returned unchanged (identity case); otherwise the result keeps the band
count and every band is exactly target by target. -/
theorem C6_resize_square (crop : NpArray3) (target_size : ℕ) :
    (resize_crop crop target_size).dtype = crop.dtype ∧
    ((shape3 crop.data).2.1 = target_size ∧
      (shape3 crop.data).2.2 = target_size →
      resize_crop crop target_size = crop) ∧
    (¬((shape3 crop.data).2.1 = target_size ∧
        (shape3 crop.data).2.2 = target_size) →
      (resize_crop crop target_size).data.length = crop.data.length ∧
      ∀ band ∈ (resize_crop crop target_size).data,
        band.length = target_size ∧
        ∀ row ∈ band, row.length = target_size) := by
  unfold resize_crop
  dsimp only
  split_ifs with hsq hdt
  · exact ⟨rfl, fun _ => rfl, fun hc => absurd hsq hc⟩
  · refine ⟨rfl, fun hc => absurd hc hsq, fun _ => ⟨by simp [shape3], ?_⟩⟩
    intro band hband
    simp only [List.mem_map] at hband
    obtain ⟨idx, _, rfl⟩ := hband
    exact pilResize_shape _ target_size
  · refine ⟨rfl, fun hc => absurd hc hsq, fun _ => ⟨by simp [shape3], ?_⟩⟩
    intro band hband
    simp only [List.mem_map] at hband
    obtain ⟨idx, _, rfl⟩ := hband
    constructor
    · simp [(pilResize_shape _ target_size).1]
    · intro row hrow
      simp only [List.mem_map] at hrow
      obtain ⟨row0, hrow0, rfl⟩ := hrow
      simp [(pilResize_shape _ target_size).2 row0 hrow0]

/-- Concrete 1-band 2 by 2 crop, shared by the C6 witness. -/
def crop2 : NpArray3 :=
  { dtype := .uint8, data := [[[(1 : ℚ), 2], [3, 4]]] }

/-- Witness for C6: the 2 by 2 crop is returned unchanged at target 2 and
resized to a 1-band result at target 3. -/
theorem C6_witness :
    resize_crop crop2 2 = crop2 ∧
    (resize_crop crop2 3).data.length = 1 :=
  ⟨(C6_resize_square crop2 2).2.1 (by constructor <;> rfl),
    by
      have h := ((C6_resize_square crop2 3).2.2 (by decide)).1
      simpa using h⟩

/-- Helper: Python indexing at a nonnegative in-range index. -/
theorem pyIndex_nonneg (len : ℕ) (i : ℤ) (h0 : 0 ≤ i) (hlt : i < (len : ℤ)) :
    pyIndex len i = some i.toNat := by
  unfold pyIndex
  dsimp only
  rw [if_neg (not_lt.mpr h0), if_pos ⟨h0, hlt⟩]

/-- Helper: Python indexing at a negative index that is at least minus the
length wraps once from the end. -/
theorem pyIndex_neg (len : ℕ) (i : ℤ) (hneg : i < 0) (h1 : -(len : ℤ) ≤ i) :
    pyIndex len i = some ((len : ℤ) + i).toNat := by
  unfold pyIndex
  dsimp only
  rw [if_pos hneg, if_pos (by omega)]

/-- Helper: when all three indices resolve through Python indexing and the
maximum is below the band count, the compositor returns the stack of the
optionally normalized selected bands. -/
theorem create_rgb_composite_some (image_data : List (List (List ℚ)))
    (r g b : ℤ) (normalize : Bool) (ri gi bi : ℕ)
    (hmax : max r (max g b) < (image_data.length : ℤ))
    (hr : pyIndex image_data.length r = some ri)
    (hg : pyIndex image_data.length g = some gi)
    (hb : pyIndex image_data.length b = some bi) :
    create_rgb_composite image_data (r, g, b) normalize =
      some (stack_axis2
        (if normalize then normalize_band (image_data.getD ri [])
          else image_data.getD ri [])
        (if normalize then normalize_band (image_data.getD gi [])
          else image_data.getD gi [])
        (if normalize then normalize_band (image_data.getD bi [])
          else image_data.getD bi [])) := by
  unfold create_rgb_composite shape3
  dsimp only
  rw [if_neg (not_le.mpr hmax), hr, hg, hb]
  cases normalize <;> rfl

/-- Helper: shape of a stack along axis 2 whose first argument has uniform
row length. -/
theorem stack_axis2_shape (r g b : List (List ℚ)) (W : ℕ)
    (hr : ∀ row ∈ r, row.length = W) :
    (stack_axis2 r g b).length = r.length ∧
    ∀ row ∈ stack_axis2 r g b, row.length = W ∧ ∀ px ∈ row, px.length = 3 := by
  unfold stack_axis2
  refine ⟨by simp, ?_⟩
  intro row hrow
  simp only [List.mem_map, List.mem_range] at hrow
  obtain ⟨i, hi, rfl⟩ := hrow
  constructor
  · rw [List.length_map, List.length_range]
    exact hr _ (getD_mem r i [] hi)
  · intro px hpx
    simp only [List.mem_map] at hpx
    obtain ⟨j, _, rfl⟩ := hpx
    rfl

/-- C7: the compositor fails (none, a caught ValueError in the source) as
soon as one requested band index reaches the band count; with three indices
inside [0, bands) it returns the stack of the three selected bands — each
normalized independently through normalize_band exactly when normalize is
set — whose shape is height rows, width columns, 3 channels per pixel. -/
theorem C7_composite_validation (image_data : List (List (List ℚ)))
    (r g b : ℤ) (normalize : Bool) (H W : ℕ)
    (hrect : Rect3 image_data H W) :
    (((image_data.length : ℤ) ≤ r ∨ (image_data.length : ℤ) ≤ g ∨
        (image_data.length : ℤ) ≤ b) →
      create_rgb_composite image_data (r, g, b) normalize = none) ∧
    ((0 ≤ r ∧ r < (image_data.length : ℤ)) →
      (0 ≤ g ∧ g < (image_data.length : ℤ)) →
      (0 ≤ b ∧ b < (image_data.length : ℤ)) →
      ∃ comp,
        create_rgb_composite image_data (r, g, b) normalize = some comp ∧
        comp = stack_axis2
          (if normalize then normalize_band (image_data.getD r.toNat [])
            else image_data.getD r.toNat [])
          (if normalize then normalize_band (image_data.getD g.toNat [])
            else image_data.getD g.toNat [])
          (if normalize then normalize_band (image_data.getD b.toNat [])
            else image_data.getD b.toNat []) ∧
        comp.length = H ∧
        ∀ row ∈ comp, row.length = W ∧ ∀ px ∈ row, px.length = 3) := by
  constructor
  · intro hbig
    unfold create_rgb_composite shape3
    dsimp only
    rw [if_pos (by omega)]
  · intro hr hg hb
    have hcreate := create_rgb_composite_some image_data r g b normalize
      r.toNat g.toNat b.toNat (by omega)
      (pyIndex_nonneg _ _ hr.1 hr.2) (pyIndex_nonneg _ _ hg.1 hg.2)
      (pyIndex_nonneg _ _ hb.1 hb.2)
    have hbandr := hrect _ (getD_mem image_data r.toNat [] (by omega))
    have hRrows : ∀ row ∈
        (if normalize then normalize_band (image_data.getD r.toNat [])
          else image_data.getD r.toNat []), row.length = W := by
      cases normalize
      · simpa using hbandr.2
      · simp only [if_pos]
        intro row hrow
        obtain ⟨row0, h0, hlen⟩ := (normalize_band_shape _).2 row hrow
        rw [hlen]
        exact hbandr.2 row0 h0
    have hRlen :
        (if normalize then normalize_band (image_data.getD r.toNat [])
          else image_data.getD r.toNat []).length = H := by
      cases normalize
      · simpa using hbandr.1
      · simp only [if_pos]
        rw [(normalize_band_shape _).1]
        exact hbandr.1
    refine ⟨_, hcreate, rfl, ?_, (stack_axis2_shape _ _ _ W hRrows).2⟩
    rw [(stack_axis2_shape _ _ _ W hRrows).1, hRlen]

/-- Witness for C7: selecting band 0 three times from the 1-band 2 by 2
source and stacking without normalization. -/
theorem C7_witness :
    create_rgb_composite crop2.data (0, 0, 0) false =
      some [[[(1 : ℚ), 1, 1], [2, 2, 2]], [[3, 3, 3], [4, 4, 4]]] := by
  obtain ⟨comp, heq, hcomp, -, -⟩ :=
    (C7_composite_validation crop2.data 0 0 0 false 2 2 (by decide)).2
      ⟨by decide, by decide⟩ ⟨by decide, by decide⟩ ⟨by decide, by decide⟩
  rw [heq, hcomp]
  rfl

/-- Concrete 5-band 1 by 1 image, shared by the C10 witness. -/
def img5b : List (List (List ℚ)) :=
  [[[10]], [[20]], [[30]], [[40]], [[50]]]

/-- C10: the validation of the compositor only rejects triples whose maximum
reaches the band count, so a triple whose indices all lie in
[-bands, bands) — including negative ones — is accepted, and a negative
index selects the band it wraps to from the end, exactly as Python list
indexing does. -/
theorem C10_negative_index_wraps (image_data : List (List (List ℚ)))
    (r g b : ℤ) (normalize : Bool)
    (hr : -(image_data.length : ℤ) ≤ r ∧ r < (image_data.length : ℤ))
    (hg : -(image_data.length : ℤ) ≤ g ∧ g < (image_data.length : ℤ))
    (hb : -(image_data.length : ℤ) ≤ b ∧ b < (image_data.length : ℤ)) :
    ∃ comp,
      create_rgb_composite image_data (r, g, b) normalize = some comp ∧
      comp = stack_axis2
        (if normalize then
          normalize_band (image_data.getD
            (if r < 0 then ((image_data.length : ℤ) + r).toNat else r.toNat) [])
          else image_data.getD
            (if r < 0 then ((image_data.length : ℤ) + r).toNat else r.toNat) [])
        (if normalize then
          normalize_band (image_data.getD
            (if g < 0 then ((image_data.length : ℤ) + g).toNat else g.toNat) [])
          else image_data.getD
            (if g < 0 then ((image_data.length : ℤ) + g).toNat else g.toNat) [])
        (if normalize then
          normalize_band (image_data.getD
            (if b < 0 then ((image_data.length : ℤ) + b).toNat else b.toNat) [])
          else image_data.getD
            (if b < 0 then ((image_data.length : ℤ) + b).toNat else b.toNat) []) := by
  have hidx : ∀ i : ℤ, -(image_data.length : ℤ) ≤ i →
      i < (image_data.length : ℤ) →
      pyIndex image_data.length i =
        some (if i < 0 then ((image_data.length : ℤ) + i).toNat else i.toNat) := by
    intro i h1 h2
    by_cases hneg : i < 0
    · rw [if_pos hneg]
      exact pyIndex_neg _ _ hneg h1
    · rw [if_neg hneg]
      exact pyIndex_nonneg _ _ (by omega) h2
  exact ⟨_, create_rgb_composite_some image_data r g b normalize _ _ _
    (by omega) (hidx r hr.1 hr.2) (hidx g hg.1 hg.2) (hidx b hb.1 hb.2), rfl⟩

/-- Witness for C10: the triple (-1, 0, 1) on the 5-band source passes
validation and selects bands 4, 0 and 1. -/
theorem C10_witness :
    create_rgb_composite img5b (-1, 0, 1) false = some [[[(50 : ℚ), 10, 20]]] := by
  obtain ⟨comp, heq, hcomp⟩ :=
    C10_negative_index_wraps img5b (-1) 0 1 false ⟨by decide, by decide⟩
      ⟨by decide, by decide⟩ ⟨by decide, by decide⟩
  rw [heq, hcomp]
  rfl

/-- Helper: getD of a mapped range at an in-range index. -/
theorem getD_range_map {α : Type} (n : ℕ) (f : ℕ → α) (d : α) (i : ℕ)
    (h : i < n) : ((List.range n).map f).getD i d = f i := by
  rw [List.getD_eq_getElem _ _ (by simpa using h)]
  simp

/-- Helper: the default head is getD at index 0. -/
theorem headD_eq_getD {α : Type} (l : List α) (d : α) :
    l.headD d = l.getD 0 d := by
  cases l <;> rfl

/-- Helper: entries of the (2, 0, 1) transpose. -/
theorem transpose_201_entry (a : List (List (List ℚ))) (d1 d2 d3 : ℕ)
    (hsh : shape3 a = (d1, d2, d3)) (k i j : ℕ)
    (hk : k < d3) (hi : i < d1) (hj : j < d2) :
    (((transpose_201 a).getD k []).getD i []).getD j 0 =
      ((a.getD i []).getD j []).getD k 0 := by
  have e1 : transpose_201 a = (List.range d3).map fun k =>
      (List.range d1).map fun i =>
        (List.range d2).map fun j => ((a.getD i []).getD j []).getD k 0 := by
    unfold transpose_201
    rw [hsh]
  rw [e1, getD_range_map _ _ _ k hk, getD_range_map _ _ _ i hi,
    getD_range_map _ _ _ j hj]

/-- Helper: shape of the (2, 0, 1) transpose. -/
theorem transpose_201_shape3 (a : List (List (List ℚ))) (d1 d2 d3 : ℕ)
    (hsh : shape3 a = (d1, d2, d3)) (h1 : 0 < d1) (h3 : 0 < d3) :
    shape3 (transpose_201 a) = (d3, d1, d2) := by
  have e1 : transpose_201 a = (List.range d3).map fun k =>
      (List.range d1).map fun i =>
        (List.range d2).map fun j => ((a.getD i []).getD j []).getD k 0 := by
    unfold transpose_201
    rw [hsh]
  rw [e1]
  unfold shape3
  simp only [headD_eq_getD]
  rw [getD_range_map _ _ _ 0 h3, getD_range_map _ _ _ 0 h1]
  simp

/-- Concrete 7 by 1 by 6 array: its last axis is smaller than its first but
larger than 5, separating the two loader heuristics. -/
def arrC8 : List (List (List ℚ)) :=
  (List.range 7).map fun i => [(List.range 6).map fun k => ((i * 10 + k : ℕ) : ℚ)]

/-- C8 counterexample: on a (7, 1, 6) array the last axis is smaller than
the first axis but not at most 5, so by the claim no transpose may happen;
load_image indeed leaves it unchanged, but the loader of crop_from_file
(cited by the claim as the same normalization) transposes it, producing an
array with a different shape. -/
theorem C8_counterexample :
    shape3 arrC8 = (7, 1, 6) ∧ ¬((6 : ℕ) ≤ 5) ∧
    crop_from_file_normalize (.arr3 arrC8) = .arr3 (transpose_201 arrC8) ∧
    NpArr.arr3 (transpose_201 arrC8) ≠ .arr3 arrC8 := by
  refine ⟨rfl, by decide, rfl, ?_⟩
  intro hcontra
  have hinj : transpose_201 arrC8 = arrC8 := by injection hcontra
  have hlen : (transpose_201 arrC8).length = arrC8.length := by rw [hinj]
  have h6 : (transpose_201 arrC8).length = 6 := rfl
  have h7 : arrC8.length = 7 := rfl
  omega

/-- C8 (amended): both loaders promote a 2-axis array to a single band.  For
a 3-axis array of shape (d1, d2, d3), load_image transposes to (d3, d1, d2)
exactly when the last axis is both smaller than the first axis and at most
5, and otherwise keeps the array; the loader of crop_from_file applies the
same transpose under the weaker condition d3 < d1 alone, without the bound
of 5.  The transposed entry at (k, i, j) is the source entry at (i, j, k). -/
theorem C8_shape_normalization (d : List (List (List ℚ))) (m : List (List ℚ))
    (d1 d2 d3 : ℕ) (hsh : shape3 d = (d1, d2, d3))
    (h1 : 0 < d1) (h3 : 0 < d3) :
    (load_image_normalize (.arr2 m) = .arr3 [m] ∧
      crop_from_file_normalize (.arr2 m) = .arr3 [m]) ∧
    (d3 < d1 ∧ d3 ≤ 5 →
      load_image_normalize (.arr3 d) = .arr3 (transpose_201 d)) ∧
    (¬(d3 < d1 ∧ d3 ≤ 5) → load_image_normalize (.arr3 d) = .arr3 d) ∧
    (d3 < d1 → crop_from_file_normalize (.arr3 d) = .arr3 (transpose_201 d)) ∧
    (¬(d3 < d1) → crop_from_file_normalize (.arr3 d) = .arr3 d) ∧
    shape3 (transpose_201 d) = (d3, d1, d2) ∧
    (∀ k i j : ℕ, k < d3 → i < d1 → j < d2 →
      (((transpose_201 d).getD k []).getD i []).getD j 0 =
        ((d.getD i []).getD j []).getD k 0) := by
  refine ⟨⟨rfl, rfl⟩, ?_, ?_, ?_, ?_,
    transpose_201_shape3 d d1 d2 d3 hsh h1 h3,
    fun k i j hk hi hj => transpose_201_entry d d1 d2 d3 hsh k i j hk hi hj⟩
  · intro hc
    unfold load_image_normalize
    dsimp only
    rw [hsh]
    dsimp only
    rw [if_pos hc]
  · intro hc
    unfold load_image_normalize
    dsimp only
    rw [hsh]
    dsimp only
    rw [if_neg hc]
  · intro hc
    unfold crop_from_file_normalize
    dsimp only
    rw [hsh]
    dsimp only
    rw [if_pos hc]
  · intro hc
    unfold crop_from_file_normalize
    dsimp only
    rw [hsh]
    dsimp only
    rw [if_neg hc]

/-- Witness for C8: a (2, 1, 1) array is transposed by load_image to shape
(1, 2, 1), and a 2-axis array is promoted to one band. -/
theorem C8_witness :
    load_image_normalize (.arr3 [[[(5 : ℚ)]], [[6]]]) =
      .arr3 (transpose_201 [[[(5 : ℚ)]], [[6]]]) ∧
    load_image_normalize (.arr2 [[(7 : ℚ)]]) = .arr3 [[[(7 : ℚ)]]] := by
  have h := C8_shape_normalization [[[(5 : ℚ)]], [[6]]] [[(7 : ℚ)]] 2 1 1 rfl
    (by decide) (by decide)
  exact ⟨h.2.1 ⟨by decide, by decide⟩, h.1.1⟩

end FiveBands
